import Mathlib

/-!
Shallow embedding of the VibhuAdvisorConnect backend core: the Opportunity and
Application lifecycle (opportunities controller, LP controller, and the
DataService persistence layer). Collections are modelled as lists inside a
`DB` state record; every handler is a function from the state (plus request
data and a `now` timestamp used for the `updatedAt`/`createdAt` stamps) to a
response together with the successor state. Route parameters arrive already
parsed to `Nat` (the JavaScript code applies `parseInt` to them throughout),
and absent JSON fields are `Option` values. JavaScript string search
(`String.prototype.includes` after `toLowerCase`) is modelled by an explicit
substring predicate on character lists.
-/

namespace Vibhu

/-- Checks that the second character list is an initial segment of the first
(the helper underneath the substring test). -/
def leadsWith : List Char → List Char → Bool
  | _, [] => true
  | [], _ :: _ => false
  | c :: hay, d :: pat => c == d && leadsWith hay pat

/-- JavaScript `hay.includes(pat)` on character lists: some suffix of `hay`
starts with `pat` (the empty pattern is always found). -/
def hasSub : List Char → List Char → Bool
  | [], pat => pat.isEmpty
  | c :: hay, pat => leadsWith (c :: hay) pat || hasSub hay pat

/-- Case-insensitive `includes`: `s.toLowerCase().includes(pat.toLowerCase())`. -/
def ciIncludes (s pat : String) : Bool :=
  hasSub s.toLower.data pat.toLower.data

/-- A user record from `users.json`; only the fields this core reads are kept.
`expertise` and `expertiseAreas` mirror the two alternative JSON keys the LP
controller consults (`user.expertise || user.expertiseAreas || []`). -/
structure User where
  id : Nat
  role : String
  firstName : String
  lastName : String
  email : String
  companyName : Option String := none
  expertise : Option (List String) := none
  expertiseAreas : Option (List String) := none
  deriving Repr, DecidableEq

/-- An opportunity record from `opportunities.json`. `expertiseNeeded` is the
legacy field read by the LP controller's match scoring; records created by the
opportunities controller carry `requiredExpertise` instead, and an absent
`expertiseNeeded` key is modelled by the empty list (the code replaces it by
`[]` with `opp.expertiseNeeded || []`). `hasApplied` models the extra key the
discovery listing attaches for LP callers. -/
structure Opportunity where
  id : Nat
  title : String
  description : String
  requiredExpertise : List String
  expertiseNeeded : List String := []
  timeCommitment : String
  compensation : String
  companyId : Nat
  companyName : String
  status : String
  viewCount : Nat
  applicantCount : Nat
  createdAt : Nat
  updatedAt : Nat
  hasApplied : Option Bool := none
  deriving Repr, DecidableEq

/-- An application record from `applications.json`. -/
structure Application where
  id : Nat
  lpId : Nat
  lpName : String
  lpEmail : String
  opportunityId : Nat
  opportunityTitle : String
  companyId : Nat
  companyName : String
  status : String
  createdAt : Nat
  updatedAt : Nat
  deriving Repr, DecidableEq

/-- The persistent store: the three JSON collections this core touches
(`connections.json` is never read or written by the embedded operations). -/
structure DB where
  users : List User
  opportunities : List Opportunity
  applications : List Application
  deriving Repr, DecidableEq

/-- `dataService.getUserById`: first user whose `id` matches. -/
def getUserById (db : DB) (id : Nat) : Option User :=
  db.users.find? (fun u => u.id == id)

/-- `dataService.getOpportunities`. -/
def getOpportunities (db : DB) : List Opportunity :=
  db.opportunities

/-- `dataService.getOpportunityById`: first opportunity whose `id` matches. -/
def getOpportunityById (db : DB) (id : Nat) : Option Opportunity :=
  db.opportunities.find? (fun o => o.id == id)

/-- A partial-update body for an opportunity, as accepted by
`dataService.updateOpportunity` (the JavaScript merges an arbitrary object
over the stored record; these are the keys the claims are about). -/
structure OppUpdates where
  title : Option String := none
  description : Option String := none
  requiredExpertise : Option (List String) := none
  timeCommitment : Option String := none
  compensation : Option String := none
  status : Option String := none
  viewCount : Option Nat := none
  applicantCount : Option Nat := none
  companyId : Option Nat := none
  deriving Repr, DecidableEq

/-- The object spread `{ ...opp, ...updates, updatedAt: now }` performed by
`dataService.updateOpportunity`: every key present in the update body
overwrites the stored field. -/
def mergeOpp (o : Opportunity) (u : OppUpdates) (now : Nat) : Opportunity :=
  { o with
    title := u.title.getD o.title
    description := u.description.getD o.description
    requiredExpertise := u.requiredExpertise.getD o.requiredExpertise
    timeCommitment := u.timeCommitment.getD o.timeCommitment
    compensation := u.compensation.getD o.compensation
    status := u.status.getD o.status
    viewCount := u.viewCount.getD o.viewCount
    applicantCount := u.applicantCount.getD o.applicantCount
    companyId := u.companyId.getD o.companyId
    updatedAt := now }

/-- Replace (in place) the first record with the given id by its merged
version, as `findIndex` followed by assignment does; `none` if no record
matches. Returns the merged record together with the new list. -/
def setFirstOpp (id : Nat) (u : OppUpdates) (now : Nat) :
    List Opportunity → Option (Opportunity × List Opportunity)
  | [] => none
  | o :: rest =>
    if o.id == id then
      some (mergeOpp o u now, mergeOpp o u now :: rest)
    else
      match setFirstOpp id u now rest with
      | none => none
      | some (r, rest') => some (r, o :: rest')

/-- `dataService.updateOpportunity`: merge the update body over the first
record with the given id and persist; returns `null` (here `none`) leaving the
store unchanged when the id is absent. -/
def updateOpportunity (db : DB) (id : Nat) (u : OppUpdates) (now : Nat) :
    Option Opportunity × DB :=
  match setFirstOpp id u now db.opportunities with
  | none => (none, db)
  | some (r, l) => (some r, { db with opportunities := l })

/-- `dataService.deleteOpportunity`: drop every record with the given id;
reports whether anything was removed. -/
def deleteOpportunity (db : DB) (id : Nat) : Bool × DB :=
  let l := db.opportunities.filter (fun o => o.id != id)
  if l.length == db.opportunities.length then (false, db)
  else (true, { db with opportunities := l })

/-- `Math.max(...ids, 0)`: the maximum of a list of ids with floor 0. -/
def maxId0 (ids : List Nat) : Nat :=
  ids.foldr max 0

/-- The creation payload assembled by the opportunities controller and handed
to `dataService.createOpportunity`. -/
structure OppData where
  title : String
  description : String
  requiredExpertise : List String
  timeCommitment : String
  compensation : String
  companyId : Nat
  companyName : String
  status : String
  viewCount : Nat
  applicantCount : Nat
  deriving Repr, DecidableEq

/-- `dataService.createOpportunity`: assign `Math.max(...ids, 0) + 1` as the
new id, default the status to `open` when the payload's status is falsy, stamp
both timestamps, and append the record. (The stray `applications`,
`matchedLPs` and `priority` keys the JavaScript also writes are not read by
any embedded operation and are left out of the record.) -/
def createOpportunity (db : DB) (d : OppData) (now : Nat) : Opportunity × DB :=
  let newId := maxId0 (db.opportunities.map (fun o => o.id)) + 1
  let o : Opportunity :=
    { id := newId
      title := d.title
      description := d.description
      requiredExpertise := d.requiredExpertise
      expertiseNeeded := []
      timeCommitment := d.timeCommitment
      compensation := d.compensation
      companyId := d.companyId
      companyName := d.companyName
      status := if d.status == "" then "open" else d.status
      viewCount := d.viewCount
      applicantCount := d.applicantCount
      createdAt := now
      updatedAt := now }
  (o, { db with opportunities := db.opportunities ++ [o] })

/-- `dataService.getApplications`. -/
def getApplications (db : DB) : List Application :=
  db.applications

/-- The application payload assembled by `applyToOpportunity` and handed to
`dataService.createApplication`. -/
structure AppData where
  lpId : Nat
  lpName : String
  lpEmail : String
  opportunityId : Nat
  opportunityTitle : String
  companyId : Nat
  companyName : String
  deriving Repr, DecidableEq

/-- `dataService.createApplication`: assign `Math.max(...ids, 0) + 1` as the
new id, force the status to `pending` (the key is written after the payload
spread), stamp both timestamps, and append the record. -/
def createApplication (db : DB) (d : AppData) (now : Nat) : Application × DB :=
  let newId := maxId0 (db.applications.map (fun a => a.id)) + 1
  let a : Application :=
    { id := newId
      lpId := d.lpId
      lpName := d.lpName
      lpEmail := d.lpEmail
      opportunityId := d.opportunityId
      opportunityTitle := d.opportunityTitle
      companyId := d.companyId
      companyName := d.companyName
      status := "pending"
      createdAt := now
      updatedAt := now }
  (a, { db with applications := db.applications ++ [a] })

/-- `dataService.getApplicationsByOpportunity`. -/
def getApplicationsByOpportunity (db : DB) (oppId : Nat) : List Application :=
  db.applications.filter (fun a => a.opportunityId == oppId)

/-- `dataService.hasApplied`: some application pairs this LP with this
opportunity. -/
def hasApplied (db : DB) (lpId oppId : Nat) : Bool :=
  db.applications.any (fun a => a.lpId == lpId && a.opportunityId == oppId)

/-- A partial-update body for an application (the controller only ever sends
`{ status }`). -/
structure AppUpdates where
  status : Option String := none
  deriving Repr, DecidableEq

/-- The object spread performed by `dataService.updateApplication`. -/
def mergeApp (a : Application) (u : AppUpdates) (now : Nat) : Application :=
  { a with status := u.status.getD a.status, updatedAt := now }

/-- Replace the first application with the given id by its merged version;
`none` if no record matches. -/
def setFirstApp (id : Nat) (u : AppUpdates) (now : Nat) :
    List Application → Option (Application × List Application)
  | [] => none
  | a :: rest =>
    if a.id == id then
      some (mergeApp a u now, mergeApp a u now :: rest)
    else
      match setFirstApp id u now rest with
      | none => none
      | some (r, rest') => some (r, a :: rest')

/-- `dataService.updateApplication`. -/
def updateApplication (db : DB) (id : Nat) (u : AppUpdates) (now : Nat) :
    Option Application × DB :=
  match setFirstApp id u now db.applications with
  | none => (none, db)
  | some (r, l) => (some r, { db with applications := l })

/-- `dataService.syncOpportunityApplicantCount`: recompute the number of
applications referencing the opportunity and persist it as the record's
`applicantCount`. -/
def syncOpportunityApplicantCount (db : DB) (oppId : Nat) (now : Nat) : Nat × DB :=
  let actual := (getApplicationsByOpportunity db oppId).length
  let res := updateOpportunity db oppId { applicantCount := some actual } now
  (actual, res.2)

/-- An HTTP response: either a success code with a payload or an error code
with the literal message written by the controller. -/
inductive Resp (α : Type) where
  | ok (code : Nat) (val : α)
  | err (code : Nat) (msg : String)
  deriving Repr, DecidableEq

/-- The HTTP status code of a response. -/
def Resp.code {α : Type} : Resp α → Nat
  | .ok c _ => c
  | .err c _ => c

/-- The query parameters of the discovery listing
(`GET /api/opportunities?status&expertise&timeCommitment&search`); the unused
`page`/`limit` parameters are dropped. -/
structure ListQuery where
  status : Option String := none
  expertise : Option String := none
  timeCommitment : Option String := none
  search : Option String := none
  deriving Repr, DecidableEq

/-- The status filter step of `getOpportunities`: destructuring gives `status`
the default `open` when the parameter is absent, and the filter runs unless the
resulting value is falsy (the empty string) or the literal `all`. -/
def applyStatusFilter (q : ListQuery) (l : List Opportunity) : List Opportunity :=
  let s := q.status.getD "open"
  if s != "" && s != "all" then l.filter (fun o => o.status == s) else l

/-- The expertise filter step: active when the parameter is present, non-empty
and not the literal `All`; keeps opportunities one of whose required-expertise
entries contains the filter string case-insensitively. -/
def applyExpertiseFilter (q : ListQuery) (l : List Opportunity) : List Opportunity :=
  match q.expertise with
  | none => l
  | some e =>
    if e != "" && e != "All" then
      l.filter (fun o => o.requiredExpertise.any (fun x => ciIncludes x e))
    else l

/-- The time-commitment filter step: same activation rule as the expertise
filter; a falsy (empty) stored `timeCommitment` never matches. -/
def applyTimeFilter (q : ListQuery) (l : List Opportunity) : List Opportunity :=
  match q.timeCommitment with
  | none => l
  | some t =>
    if t != "" && t != "All" then
      l.filter (fun o => o.timeCommitment != "" && ciIncludes o.timeCommitment t)
    else l

/-- The search filter step: active for a present non-empty search term; keeps
opportunities whose title, description or company name contains the term
case-insensitively (falsy stored fields are skipped). -/
def applySearchFilter (q : ListQuery) (l : List Opportunity) : List Opportunity :=
  match q.search with
  | none => l
  | some s =>
    if s != "" then
      l.filter (fun o =>
        (o.title != "" && ciIncludes o.title s)
        || (o.description != "" && ciIncludes o.description s)
        || (o.companyName != "" && ciIncludes o.companyName s))
    else l

/-- The comparator `(a, b) => new Date(b.createdAt) - new Date(a.createdAt)`
(newest first): `a` sorts no later than `b` when its timestamp is no older. -/
abbrev byNewest (a b : Opportunity) : Prop :=
  b.createdAt ≤ a.createdAt

/-- A stable sort by descending creation date, modelling `Array.prototype.sort`
with the newest-first comparator. -/
def sortByNewest (l : List Opportunity) : List Opportunity :=
  List.insertionSort byNewest l

/-- The number of applications referencing the opportunity, as recomputed by
the listing loops (`getApplicationsByOpportunity(...).length`). -/
def countApps (db : DB) (oppId : Nat) : Nat :=
  (getApplicationsByOpportunity db oppId).length

/-- The applicant-count synchronization loop shared by `getOpportunities` and
`getCompanyOpportunities`: each listed opportunity gets its in-memory
`applicantCount` replaced by the recomputed value, and the store is updated
whenever the value it held when read differs from the recomputed one. -/
def syncLoop (now : Nat) : List Opportunity → DB → List Opportunity × DB
  | [], db => ([], db)
  | o :: rest, db =>
    let actual := countApps db o.id
    let o' := { o with applicantCount := actual }
    let db1 :=
      if o.applicantCount != actual then
        (updateOpportunity db o.id { applicantCount := some actual } now).2
      else db
    let r := syncLoop now rest db1
    (o' :: r.1, r.2)

/-- `getOpportunities` (discovery listing): role-based exclusion of the
caller's own postings, the four filter steps, newest-first sort, the
applicant-count synchronization loop, and the `hasApplied` annotation for LP
callers. The handler has no error path (an unknown caller simply skips the
role-specific steps), so it returns the listed opportunities directly. -/
def getOpportunitiesHandler (db : DB) (callerId : Nat) (q : ListQuery) (now : Nat) :
    List Opportunity × DB :=
  let opps0 := getOpportunities db
  let user := getUserById db callerId
  let opps1 :=
    match user with
    | some u => if u.role == "Company" then opps0.filter (fun o => o.companyId != u.id) else opps0
    | none => opps0
  let opps2 := applyStatusFilter q opps1
  let opps3 := applyExpertiseFilter q opps2
  let opps4 := applyTimeFilter q opps3
  let opps5 := applySearchFilter q opps4
  let opps6 := sortByNewest opps5
  let r := syncLoop now opps6 db
  let res :=
    match user with
    | some u =>
      if u.role == "LP" then
        r.1.map (fun o => { o with hasApplied := some (hasApplied r.2 u.id o.id) })
      else r.1
    | none => r.1
  (res, r.2)

/-- `getCompanyOpportunities`: requires an existing caller with the Company
role, keeps only the caller's own postings, runs the synchronization loop, and
returns them newest first. -/
def getCompanyOpportunitiesHandler (db : DB) (callerId : Nat) (now : Nat) :
    Resp (List Opportunity) × DB :=
  match getUserById db callerId with
  | none => (.err 404 "User not found", db)
  | some u =>
    if u.role != "Company" then
      (.err 403 "Access denied. Company role required.", db)
    else
      let l := (getOpportunities db).filter (fun o => o.companyId == u.id)
      let r := syncLoop now l db
      (.ok 200 (sortByNewest r.1), r.2)

/-- `trackOpportunityView`: 404 when the opportunity is absent; otherwise
persist `viewCount + 1` and answer with the incremented value. -/
def trackOpportunityViewHandler (db : DB) (oppId : Nat) (now : Nat) : Resp Nat × DB :=
  match getOpportunityById db oppId with
  | none => (.err 404 "Opportunity not found", db)
  | some o =>
    let newViewCount := o.viewCount + 1
    let r := updateOpportunity db oppId { viewCount := some newViewCount } now
    (.ok 200 newViewCount, r.2)

/-- A JSON field is a usable string when it is present and non-blank after
trimming (`!field || !field.trim()` rejects it otherwise). -/
def strPresent : Option String → Bool
  | none => false
  | some s => s.trim != ""

/-- The body of the full-update request (`PUT /api/opportunities/:id`); the
handler reads exactly these five keys. -/
structure UpdateBody where
  title : Option String := none
  description : Option String := none
  requiredExpertise : Option (List String) := none
  timeCommitment : Option String := none
  compensation : Option String := none
  deriving Repr, DecidableEq

/-- `updateOpportunity` (controller, full edit): 404 for an unknown caller,
403 for any caller whose role is not `Company` (checked before anything else,
so an Admin is rejected here), 404 for a missing opportunity, 403 for a
non-owning company, then the same field validation as creation, and finally
the merge of the five trimmed fields. -/
def updateOpportunityHandler (db : DB) (callerId oppId : Nat) (b : UpdateBody) (now : Nat) :
    Resp Opportunity × DB :=
  match getUserById db callerId with
  | none => (.err 404 "User not found", db)
  | some u =>
    if u.role != "Company" then
      (.err 403 "Access denied. Company role required.", db)
    else
      match getOpportunityById db oppId with
      | none => (.err 404 "Opportunity not found", db)
      | some o =>
        if o.companyId != u.id && u.role != "Admin" then
          (.err 403 "Access denied. You can only update your own opportunities.", db)
        else if !(strPresent b.title) then (.err 400 "Title is required", db)
        else if !(strPresent b.description) then (.err 400 "Description is required", db)
        else if (b.requiredExpertise.getD []).isEmpty then
          (.err 400 "At least one area of required expertise is needed", db)
        else if !(strPresent b.timeCommitment) then (.err 400 "Time commitment is required", db)
        else if !(strPresent b.compensation) then
          (.err 400 "Compensation details are required", db)
        else
          let upd : OppUpdates :=
            { title := some (b.title.getD "").trim
              description := some (b.description.getD "").trim
              requiredExpertise := some ((b.requiredExpertise.getD []).filter (fun e => e.trim != ""))
              timeCommitment := some (b.timeCommitment.getD "").trim
              compensation := some (b.compensation.getD "").trim }
          match updateOpportunity db oppId upd now with
          | (none, db1) => (.err 500 "Failed to update opportunity", db1)
          | (some r, db1) => (.ok 200 r, db1)

/-- The statuses a patch may set. -/
def validOppStatuses : List String :=
  ["open", "closed", "filled"]

/-- `patchOpportunity`: 404 for a missing opportunity; the ownership check
then dereferences the caller record, so an unknown caller raises and the
catch-all answers 500; a non-owning, non-admin caller gets 403; a truthy but
invalid `status` in the body gets 400; otherwise the whole body is merged over
the stored record. -/
def patchOpportunityHandler (db : DB) (callerId oppId : Nat) (b : OppUpdates) (now : Nat) :
    Resp Opportunity × DB :=
  let user := getUserById db callerId
  match getOpportunityById db oppId with
  | none => (.err 404 "Opportunity not found", db)
  | some o =>
    match user with
    | none => (.err 500 "Server error updating opportunity", db)
    | some u =>
      if o.companyId != u.id && u.role != "Admin" then
        (.err 403 "Access denied. You can only update your own opportunities.", db)
      else if (match b.status with
               | some s => s != "" && !(validOppStatuses.contains s)
               | none => false) then
        (.err 400 "Invalid status. Must be one of: open, closed, filled", db)
      else
        match updateOpportunity db oppId b now with
        | (none, db1) => (.err 500 "Failed to update opportunity", db1)
        | (some r, db1) => (.ok 200 r, db1)

/-- `deleteOpportunity` (controller): 404 for a missing opportunity, 500 for
an unknown caller (the ownership check raises), 403 for a non-owning,
non-admin caller, otherwise the hard delete. -/
def deleteOpportunityHandler (db : DB) (callerId oppId : Nat) : Resp Unit × DB :=
  let user := getUserById db callerId
  match getOpportunityById db oppId with
  | none => (.err 404 "Opportunity not found", db)
  | some o =>
    match user with
    | none => (.err 500 "Server error deleting opportunity", db)
    | some u =>
      if o.companyId != u.id && u.role != "Admin" then
        (.err 403 "Access denied. You can only delete your own opportunities.", db)
      else
        match deleteOpportunity db oppId with
        | (false, db1) => (.err 500 "Failed to delete opportunity", db1)
        | (true, db1) => (.ok 200 (), db1)

/-- `applyToOpportunity`: LP role required; the target must exist and be
`open`; a prior application from the same pair is rejected; otherwise the
application is created (snapshotting the denormalized names) and the
applicant count of the opportunity is eagerly resynchronized. Answers 201
with the new application id. -/
def applyToOpportunityHandler (db : DB) (callerId oppId : Nat) (now : Nat) : Resp Nat × DB :=
  match getUserById db callerId with
  | none => (.err 404 "User not found", db)
  | some u =>
    if u.role != "LP" then
      (.err 403 "Access denied. Only LP users can apply to opportunities.", db)
    else
      match getOpportunityById db oppId with
      | none => (.err 404 "Opportunity not found", db)
      | some o =>
        if o.status != "open" then
          (.err 400 "This opportunity is not open for applications", db)
        else if hasApplied db u.id oppId then
          (.err 400 "You have already applied to this opportunity", db)
        else
          let d : AppData :=
            { lpId := u.id
              lpName := u.firstName ++ " " ++ u.lastName
              lpEmail := u.email
              opportunityId := oppId
              opportunityTitle := o.title
              companyId := o.companyId
              companyName := o.companyName }
          let c := createApplication db d now
          let s := syncOpportunityApplicantCount c.2 oppId now
          (.ok 201 c.1.id, s.2)

/-- The statuses an application may be set to. -/
def validAppStatuses : List String :=
  ["pending", "reviewed", "accepted", "rejected"]

/-- `updateApplicationStatus`: 404 for an unknown caller, 403 unless the
caller is a Company or Admin, 400 for a falsy or invalid requested status,
404 for a missing application, 404 when the application's opportunity no
longer exists, 403 for a non-owning company, and finally the status merge. -/
def updateApplicationStatusHandler (db : DB) (callerId appId : Nat)
    (status : Option String) (now : Nat) : Resp Application × DB :=
  match getUserById db callerId with
  | none => (.err 404 "User not found", db)
  | some u =>
    if u.role != "Company" && u.role != "Admin" then
      (.err 403 "Access denied. Company role required.", db)
    else if (match status with
             | none => true
             | some s => s == "" || !(validAppStatuses.contains s)) then
      (.err 400 "Invalid status. Must be one of: pending, reviewed, accepted, rejected", db)
    else
      match (getApplications db).find? (fun a => a.id == appId) with
      | none => (.err 404 "Application not found", db)
      | some app =>
        match getOpportunityById db app.opportunityId with
        | none => (.err 404 "Associated opportunity not found", db)
        | some o =>
          if o.companyId != u.id && u.role != "Admin" then
            (.err 403 "Access denied. You can only update applications for your own opportunities.", db)
          else
            match updateApplication db appId { status := status } now with
            | (none, db1) => (.err 500 "Failed to update application", db1)
            | (some a, db1) => (.ok 200 a, db1)

/-- An opportunity as returned by the LP discovery path, enriched with the
relevance score and flag. -/
structure ScoredOpportunity where
  opp : Opportunity
  matchScore : Nat
  isRelevant : Bool
  deriving Repr, DecidableEq

/-- `Math.round((m / n) * 100)` for naturals with `n > 0`, under exact
rational semantics (round half up). -/
def jsRound100 (m n : Nat) : Nat :=
  (200 * m + n) / (2 * n)

/-- The bidirectional case-insensitive substring test between one LP skill and
one required skill. -/
def biMatch (userSkill skill : String) : Bool :=
  ciIncludes userSkill skill || ciIncludes skill userSkill

/-- The number of entries of the required list that match some LP skill. -/
def lpMatchCount (userExpertise required : List String) : Nat :=
  (required.filter (fun skill => userExpertise.any (fun us => biMatch us skill))).length

/-- The LP controller's relevance scoring of one opportunity: the required
list is `opp.expertiseNeeded || []`, the score is the rounded overlap
percentage when that list is non-empty and the constant 50 otherwise, and the
opportunity is relevant when the score exceeds 30. -/
def lpScore (u : User) (o : Opportunity) : ScoredOpportunity :=
  let userExpertise := u.expertise.getD (u.expertiseAreas.getD [])
  let required := o.expertiseNeeded
  let m := lpMatchCount userExpertise required
  let score := if required.length > 0 then jsRound100 m required.length else 50
  { opp := o, matchScore := score, isRelevant := score > 30 }

/-- The comparator `(a, b) => b.matchScore - a.matchScore` (highest score
first). -/
abbrev byScore (a b : ScoredOpportunity) : Prop :=
  b.matchScore ≤ a.matchScore

/-- `lpController.getOpportunities`: 403 unless the caller exists and is an
LP; otherwise the open opportunities, scored and sorted by descending match
score. The handler never writes, so only the response is returned. -/
def lpGetOpportunitiesHandler (db : DB) (callerId : Nat) : Resp (List ScoredOpportunity) :=
  match getUserById db callerId with
  | none => .err 403 "Access denied. LP role required."
  | some u =>
    if u.role != "LP" then .err 403 "Access denied. LP role required."
    else
      let l := (getOpportunities db).filter (fun o => o.status == "open")
      .ok 200 (List.insertionSort byScore (l.map (lpScore u)))

/-! Helper lemmas about the store primitives. -/

theorem le_maxId0 {x : Nat} {ids : List Nat} (h : x ∈ ids) : x ≤ maxId0 ids := by
  induction ids with
  | nil => cases h
  | cons a l ih =>
    rcases List.mem_cons.mp h with rfl | hl
    · exact Nat.le_max_left _ _
    · exact Nat.le_trans (ih hl) (Nat.le_max_right _ _)

theorem mergeOpp_id (o : Opportunity) (u : OppUpdates) (now : Nat) :
    (mergeOpp o u now).id = o.id := rfl

theorem mergeOpp_companyId_of_none {u : OppUpdates} (h : u.companyId = none)
    (o : Opportunity) (now : Nat) : (mergeOpp o u now).companyId = o.companyId := by
  simp [mergeOpp, h]

/-- A record found by id, merged and written back: the characterization of
`setFirstOpp` on a list that contains the id. -/
theorem setFirstOpp_of_find? {l : List Opportunity} {i : Nat} {o : Opportunity}
    (h : l.find? (fun x => x.id == i) = some o) (u : OppUpdates) (now : Nat) :
    ∃ l', setFirstOpp i u now l = some (mergeOpp o u now, l')
      ∧ l'.map (fun x => x.id) = l.map (fun x => x.id)
      ∧ l'.find? (fun x => x.id == i) = some (mergeOpp o u now)
      ∧ (∀ j, j ≠ i → l'.find? (fun x => x.id == j) = l.find? (fun x => x.id == j)) := by
  induction l with
  | nil => simp [List.find?] at h
  | cons a l ih =>
    cases hb : (a.id == i) with
    | true =>
      have h' : a = o := by simpa [List.find?, hb] using h
      subst h'
      refine ⟨mergeOpp a u now :: l, ?_, ?_, ?_, ?_⟩
      · simp [setFirstOpp, hb]
      · simp [mergeOpp_id]
      · simp [List.find?, mergeOpp_id, hb]
      · intro j hj
        have hbj : (a.id == j) = false := by
          have ha : a.id = i := by simpa using hb
          simp [ha]
          exact fun hh => hj hh.symm
        simp [List.find?, mergeOpp_id, hbj]
    | false =>
      have h' : l.find? (fun x => x.id == i) = some o := by
        simpa [List.find?, hb] using h
      obtain ⟨l', h1, h2, h3, h4⟩ := ih h'
      refine ⟨a :: l', ?_, ?_, ?_, ?_⟩
      · simp [setFirstOpp, hb, h1]
      · simp [h2]
      · simp [List.find?, hb, h3]
      · intro j hj
        cases hbj : (a.id == j) with
        | true => simp [List.find?, hbj]
        | false => simp [List.find?, hbj, h4 j hj]

theorem find?_none_setFirstOpp {l : List Opportunity} {i : Nat}
    (h : l.find? (fun x => x.id == i) = none) (u : OppUpdates) (now : Nat) :
    setFirstOpp i u now l = none := by
  induction l with
  | nil => simp [setFirstOpp]
  | cons a l ih =>
    cases hb : (a.id == i) with
    | true => simp [List.find?, hb] at h
    | false =>
      have h' : l.find? (fun x => x.id == i) = none := by
        simpa [List.find?, hb] using h
      simp [setFirstOpp, hb, ih h']

theorem setFirstOpp_mem_source {l l' : List Opportunity} {i : Nat} {u : OppUpdates}
    {now : Nat} {r : Opportunity} (h : setFirstOpp i u now l = some (r, l')) :
    ∀ x ∈ l', x ∈ l ∨ ∃ y ∈ l, x = mergeOpp y u now := by
  induction l generalizing l' with
  | nil => simp [setFirstOpp] at h
  | cons a l ih =>
    cases hb : (a.id == i) with
    | true =>
      simp only [setFirstOpp, hb, if_true] at h
      cases h
      intro x hx
      rcases List.mem_cons.mp hx with rfl | hxl
      · exact Or.inr ⟨a, List.mem_cons_self _ _, rfl⟩
      · exact Or.inl (List.mem_cons_of_mem _ hxl)
    | false =>
      simp only [setFirstOpp, hb, Bool.false_eq_true, if_false] at h
      rcases hrec : setFirstOpp i u now l with _ | ⟨r0, l0⟩
      · rw [hrec] at h; cases h
      · rw [hrec] at h
        cases h
        intro x hx
        rcases List.mem_cons.mp hx with rfl | hxl
        · exact Or.inl (List.mem_cons_self _ _)
        · rcases ih hrec x hxl with hm | ⟨y, hy, hxy⟩
          · exact Or.inl (List.mem_cons_of_mem _ hm)
          · exact Or.inr ⟨y, List.mem_cons_of_mem _ hy, hxy⟩

theorem updateOpportunity_applications (db : DB) (i : Nat) (u : OppUpdates) (now : Nat) :
    (updateOpportunity db i u now).2.applications = db.applications := by
  unfold updateOpportunity
  rcases h : setFirstOpp i u now db.opportunities with _ | ⟨r, l⟩ <;> simp

theorem updateOpportunity_users (db : DB) (i : Nat) (u : OppUpdates) (now : Nat) :
    (updateOpportunity db i u now).2.users = db.users := by
  unfold updateOpportunity
  rcases h : setFirstOpp i u now db.opportunities with _ | ⟨r, l⟩ <;> simp

theorem updateOpportunity_map_id (db : DB) (i : Nat) (u : OppUpdates) (now : Nat) :
    (updateOpportunity db i u now).2.opportunities.map (fun x => x.id)
      = db.opportunities.map (fun x => x.id) := by
  unfold updateOpportunity
  rcases hfind : db.opportunities.find? (fun x => x.id == i) with _ | o
  · rw [find?_none_setFirstOpp hfind]
  · obtain ⟨l', h1, h2, _, _⟩ := setFirstOpp_of_find? hfind u now
    rw [h1]
    simpa using h2

theorem updateOpportunity_of_find? {db : DB} {i : Nat} {o : Opportunity}
    (h : getOpportunityById db i = some o) (u : OppUpdates) (now : Nat) :
    (updateOpportunity db i u now).1 = some (mergeOpp o u now)
      ∧ getOpportunityById (updateOpportunity db i u now).2 i = some (mergeOpp o u now) := by
  obtain ⟨l', h1, _, h3, _⟩ := setFirstOpp_of_find? h u now
  unfold updateOpportunity
  rw [h1]
  exact ⟨rfl, h3⟩

theorem updateOpportunity_find?_other {db : DB} {i j : Nat} (hj : j ≠ i)
    (u : OppUpdates) (now : Nat) :
    getOpportunityById (updateOpportunity db i u now).2 j = getOpportunityById db j := by
  unfold updateOpportunity
  rcases hfind : db.opportunities.find? (fun x => x.id == i) with _ | o
  · rw [find?_none_setFirstOpp hfind]
  · obtain ⟨l', h1, _, _, h4⟩ := setFirstOpp_of_find? hfind u now
    rw [h1]
    simpa [getOpportunityById] using h4 j hj

theorem countApps_congr {db db' : DB} (h : db.applications = db'.applications) (i : Nat) :
    countApps db i = countApps db' i := by
  unfold countApps getApplicationsByOpportunity
  rw [h]

/-- When ids are distinct, membership determines the record found by id. -/
theorem nodup_id_unique {l : List Opportunity}
    (hnd : (l.map (fun o => o.id)).Nodup) {a b : Opportunity}
    (ha : a ∈ l) (hb : b ∈ l) (h : a.id = b.id) : a = b :=
  List.inj_on_of_nodup_map hnd ha hb h

/-- When ids are distinct, searching a member's id finds the member itself. -/
theorem find?_id_of_nodup {l : List Opportunity}
    (hnd : (l.map (fun o => o.id)).Nodup) {o : Opportunity} (ho : o ∈ l) :
    l.find? (fun x => x.id == o.id) = some o := by
  induction l with
  | nil => cases ho
  | cons a t ih =>
    cases hb : (a.id == o.id) with
    | true =>
      have hmem : o ∈ a :: t := ho
      have ha : a = o :=
        nodup_id_unique hnd (List.mem_cons_self _ _) hmem (by simpa using hb)
      simp [List.find?, hb, ha]
    | false =>
      have ho' : o ∈ t := by
        rcases List.mem_cons.mp ho with rfl | h'
        · simp at hb
        · exact h'
      have hnd' : (t.map (fun o => o.id)).Nodup := by
        simpa using (List.nodup_cons.mp (by simpa using hnd)).2
      simp [List.find?, hb, ih hnd' ho']

theorem syncLoop_applications (now : Nat) (l : List Opportunity) (db : DB) :
    (syncLoop now l db).2.applications = db.applications := by
  induction l generalizing db with
  | nil => rfl
  | cons o rest ih =>
    simp only [syncLoop]
    rw [ih]
    by_cases h : o.applicantCount ≠ countApps db o.id
    · simp [h, updateOpportunity_applications]
    · simp [h]

theorem syncLoop_map_id (now : Nat) (l : List Opportunity) (db : DB) :
    (syncLoop now l db).2.opportunities.map (fun x => x.id)
      = db.opportunities.map (fun x => x.id) := by
  induction l generalizing db with
  | nil => rfl
  | cons o rest ih =>
    simp only [syncLoop]
    rw [ih]
    by_cases h : o.applicantCount ≠ countApps db o.id
    · simp [h, updateOpportunity_map_id]
    · simp [h]

theorem syncLoop_fst (now : Nat) (l : List Opportunity) :
    ∀ db : DB, (syncLoop now l db).1
      = l.map (fun o => { o with applicantCount := countApps db o.id }) := by
  induction l with
  | nil => intro db; rfl
  | cons o rest ih =>
    intro db
    simp only [syncLoop, List.map_cons]
    congr 1
    by_cases h : o.applicantCount ≠ countApps db o.id
    · rw [if_pos (by simpa using h), ih]
      have happs :
          ((updateOpportunity db o.id { applicantCount := some (countApps db o.id) } now).2).applications
            = db.applications := updateOpportunity_applications _ _ _ _
      exact List.map_congr_left fun x _ => by rw [countApps_congr happs]
    · rw [if_neg (by simpa using h), ih]

theorem syncLoop_find?_other (now : Nat) (l : List Opportunity) :
    ∀ (db : DB) (j : Nat), j ∉ l.map (fun o => o.id) →
      getOpportunityById (syncLoop now l db).2 j = getOpportunityById db j := by
  induction l with
  | nil => intro db j _; rfl
  | cons o rest ih =>
    intro db j hj
    have hj1 : j ≠ o.id := by
      intro h
      exact hj (by simp [h])
    have hj2 : j ∉ rest.map (fun x => x.id) := by
      intro h
      exact hj (by simp [h])
    simp only [syncLoop]
    rw [ih _ j hj2]
    by_cases h : o.applicantCount ≠ countApps db o.id
    · rw [if_pos (by simpa using h)]
      exact updateOpportunity_find?_other hj1 _ _
    · rw [if_neg (by simpa using h)]

/-- After the synchronization loop the store holds, for every listed id, a
record whose applicant count equals the recomputed application count. -/
theorem syncLoop_store (now : Nat) (l : List Opportunity) :
    ∀ db : DB, (∀ o ∈ l, getOpportunityById db o.id = some o) →
    (l.map (fun o => o.id)).Nodup →
    ∀ o ∈ l, ∃ r, getOpportunityById (syncLoop now l db).2 o.id = some r
      ∧ r.applicantCount = countApps db o.id := by
  induction l with
  | nil => intro db _ _ o ho; cases ho
  | cons o rest ih =>
    intro db hmem hnd
    have hhead := hmem o (List.mem_cons_self _ _)
    have hid_not : o.id ∉ rest.map (fun x => x.id) := by
      have h0 := hnd
      simp only [List.map_cons, List.nodup_cons] at h0
      exact h0.1
    have hnd' : (rest.map (fun x => x.id)).Nodup := by
      have h0 := hnd
      simp only [List.map_cons, List.nodup_cons] at h0
      exact h0.2
    set actual := countApps db o.id with hactual
    by_cases hw : o.applicantCount ≠ actual
    · set db1 := (updateOpportunity db o.id { applicantCount := some actual } now).2 with hdb1
      have hstep : syncLoop now (o :: rest) db
          = ({ o with applicantCount := actual } :: (syncLoop now rest db1).1,
             (syncLoop now rest db1).2) := by
        simp only [syncLoop]
        rw [if_pos (by simpa using hw)]
      have hfound := (updateOpportunity_of_find? hhead
        { applicantCount := some actual } now).2
      have happs1 : db1.applications = db.applications :=
        updateOpportunity_applications _ _ _ _
      have hmem' : ∀ x ∈ rest, getOpportunityById db1 x.id = some x := by
        intro x hx
        have hxne : x.id ≠ o.id := by
          intro hxy
          exact hid_not (by simpa [hxy] using List.mem_map_of_mem (fun y => y.id) hx)
        rw [updateOpportunity_find?_other hxne]
        exact hmem x (List.mem_cons_of_mem _ hx)
      intro x hx
      rcases List.mem_cons.mp hx with rfl | hxr
      · refine ⟨mergeOpp x { applicantCount := some actual } now, ?_, rfl⟩
        rw [hstep]
        rw [syncLoop_find?_other now rest db1 x.id hid_not]
        exact hfound
      · obtain ⟨r, hr1, hr2⟩ := ih db1 hmem' hnd' x hxr
        refine ⟨r, ?_, ?_⟩
        · rw [hstep]; exact hr1
        · rw [hr2]
          exact countApps_congr happs1 x.id
    · have hstep : syncLoop now (o :: rest) db
          = ({ o with applicantCount := actual } :: (syncLoop now rest db).1,
             (syncLoop now rest db).2) := by
        simp only [syncLoop]
        rw [if_neg (by simpa using hw)]
      have hmem' : ∀ x ∈ rest, getOpportunityById db x.id = some x :=
        fun x hx => hmem x (List.mem_cons_of_mem _ hx)
      intro x hx
      rcases List.mem_cons.mp hx with rfl | hxr
      · refine ⟨x, ?_, by omega⟩
        rw [hstep]
        rw [syncLoop_find?_other now rest db x.id hid_not]
        exact hhead
      · obtain ⟨r, hr1, hr2⟩ := ih db hmem' hnd' x hxr
        exact ⟨r, by rw [hstep]; exact hr1, hr2⟩

theorem applyStatusFilter_sublist (q : ListQuery) (l : List Opportunity) :
    (applyStatusFilter q l).Sublist l := by
  dsimp only [applyStatusFilter]
  split
  · exact List.filter_sublist l
  · exact List.Sublist.refl l

theorem applyExpertiseFilter_sublist (q : ListQuery) (l : List Opportunity) :
    (applyExpertiseFilter q l).Sublist l := by
  unfold applyExpertiseFilter
  rcases q.expertise with _ | e
  · exact List.Sublist.refl l
  · simp only
    split
    · exact List.filter_sublist l
    · exact List.Sublist.refl l

theorem applyTimeFilter_sublist (q : ListQuery) (l : List Opportunity) :
    (applyTimeFilter q l).Sublist l := by
  unfold applyTimeFilter
  rcases q.timeCommitment with _ | t
  · exact List.Sublist.refl l
  · simp only
    split
    · exact List.filter_sublist l
    · exact List.Sublist.refl l

theorem applySearchFilter_sublist (q : ListQuery) (l : List Opportunity) :
    (applySearchFilter q l).Sublist l := by
  unfold applySearchFilter
  rcases q.search with _ | s
  · exact List.Sublist.refl l
  · simp only
    split
    · exact List.filter_sublist l
    · exact List.Sublist.refl l

theorem filters_sublist (q : ListQuery) (l : List Opportunity) :
    (applySearchFilter q (applyTimeFilter q (applyExpertiseFilter q
      (applyStatusFilter q l)))).Sublist l :=
  ((applySearchFilter_sublist q _).trans
    ((applyTimeFilter_sublist q _).trans
      (applyExpertiseFilter_sublist q _))).trans
    (applyStatusFilter_sublist q l)

theorem sortByNewest_perm (l : List Opportunity) : (sortByNewest l).Perm l :=
  List.perm_insertionSort _ l

theorem sortByNewest_mem {l : List Opportunity} {o : Opportunity} :
    o ∈ sortByNewest l ↔ o ∈ l :=
  (sortByNewest_perm l).mem_iff

/-- Sorting and filtering a store with distinct ids leaves the ids distinct. -/
theorem sorted_filtered_nodup {src l : List Opportunity}
    (hnd : (src.map (fun o => o.id)).Nodup) (hsub : l.Sublist src) :
    ((sortByNewest l).map (fun o => o.id)).Nodup := by
  have h1 : ((sortByNewest l).map (fun o => o.id)).Perm (l.map (fun o => o.id)) :=
    (sortByNewest_perm l).map _
  have h2 : (l.map (fun o => o.id)).Nodup := (hsub.map _).nodup hnd
  exact (h1.nodup_iff).mpr h2

/-- Core correctness of a listing read: every opportunity produced by the
synchronization loop carries the recomputed application count, and the store
afterwards agrees on that id. -/
theorem sync_result_spec (db : DB)
    (hnd : (db.opportunities.map (fun o => o.id)).Nodup)
    (now : Nat) (l : List Opportunity)
    (hsub : ∀ o ∈ l, o ∈ db.opportunities)
    (hndl : (l.map (fun o => o.id)).Nodup) :
    ∀ o ∈ (syncLoop now l db).1,
      o.applicantCount = countApps (syncLoop now l db).2 o.id
      ∧ ∀ rec ∈ (syncLoop now l db).2.opportunities, rec.id = o.id →
          rec.applicantCount = countApps (syncLoop now l db).2 o.id := by
  have happs : (syncLoop now l db).2.applications = db.applications :=
    syncLoop_applications now l db
  have hmapid : (syncLoop now l db).2.opportunities.map (fun o => o.id)
      = db.opportunities.map (fun o => o.id) := syncLoop_map_id now l db
  have hndF : ((syncLoop now l db).2.opportunities.map (fun o => o.id)).Nodup := by
    rw [hmapid]; exact hnd
  have hmem : ∀ o ∈ l, getOpportunityById db o.id = some o :=
    fun o ho => find?_id_of_nodup hnd (hsub o ho)
  have hstore := syncLoop_store now l db hmem hndl
  intro o ho
  rw [syncLoop_fst] at ho
  obtain ⟨src, hsrc, rfl⟩ := List.mem_map.mp ho
  have hcnt : countApps db src.id = countApps (syncLoop now l db).2 src.id :=
    countApps_congr happs.symm src.id
  constructor
  · simpa using hcnt
  · intro rec hrec hrecid
    obtain ⟨r, hr1, hr2⟩ := hstore src hsrc
    have hrmem : r ∈ (syncLoop now l db).2.opportunities :=
      List.mem_of_find?_eq_some hr1
    have hrid : r.id = src.id := by
      have := List.find?_some hr1
      simpa using this
    have hrecid' : rec.id = r.id := by
      simpa [hrid] using hrecid
    have : rec = r := nodup_id_unique hndF hrec hrmem hrecid'
    subst this
    simpa [hr2] using hcnt

/-- The discovery listing is the synchronization loop run over the sorted,
filtered store (the base list depending on the caller's role), with a result
that preserves ids, applicant counts and statuses in both directions (the LP
annotation only adds the `hasApplied` key). -/
theorem getOpportunitiesHandler_shape (db : DB) (callerId : Nat) (q : ListQuery) (now : Nat) :
    ∃ S base : List Opportunity,
      S.Perm (applySearchFilter q (applyTimeFilter q (applyExpertiseFilter q
        (applyStatusFilter q base))))
      ∧ base.Sublist db.opportunities
      ∧ (getUserById db callerId = none → base = db.opportunities)
      ∧ (∀ u : User, getUserById db callerId = some u → u.role ≠ "Company"
          → base = db.opportunities)
      ∧ (∀ u : User, getUserById db callerId = some u → u.role = "Company"
          → base = db.opportunities.filter (fun o => o.companyId != u.id))
      ∧ (getOpportunitiesHandler db callerId q now).2 = (syncLoop now S db).2
      ∧ (∀ o ∈ (getOpportunitiesHandler db callerId q now).1,
          ∃ o0 ∈ (syncLoop now S db).1,
            o.id = o0.id ∧ o.applicantCount = o0.applicantCount ∧ o.status = o0.status)
      ∧ (∀ o0 ∈ (syncLoop now S db).1,
          ∃ o ∈ (getOpportunitiesHandler db callerId q now).1,
            o.id = o0.id ∧ o.status = o0.status) := by
  rcases hu : getUserById db callerId with _ | u
  · refine ⟨sortByNewest (applySearchFilter q (applyTimeFilter q (applyExpertiseFilter q
        (applyStatusFilter q db.opportunities)))), db.opportunities,
      sortByNewest_perm _, List.Sublist.refl _, ?_, ?_, ?_, ?_, ?_, ?_⟩
    · intro _; rfl
    · intro _ _ _; rfl
    · intro u' hu' _; exact Option.noConfusion hu'
    · simp only [getOpportunitiesHandler, getOpportunities, hu]
    · simp only [getOpportunitiesHandler, getOpportunities, hu]
      intro o ho
      exact ⟨o, ho, rfl, rfl, rfl⟩
    · simp only [getOpportunitiesHandler, getOpportunities, hu]
      intro o0 ho0
      exact ⟨o0, ho0, rfl, rfl⟩
  · by_cases hc : u.role = "Company"
    · have hlp : (u.role == "LP") = false := by simp [hc]
      have hcb : (u.role == "Company") = true := by simp [hc]
      have hb2 : ∀ u' : User, some u = some u' → u'.role ≠ "Company" →
          db.opportunities.filter (fun o => o.companyId != u.id) = db.opportunities := by
        intro u' hu' hne
        cases Option.some.inj hu'
        exact absurd hc hne
      have hb3 : ∀ u' : User, some u = some u' → u'.role = "Company" →
          db.opportunities.filter (fun o => o.companyId != u.id)
            = db.opportunities.filter (fun o => o.companyId != u'.id) := by
        intro u' hu' _
        cases Option.some.inj hu'
        rfl
      refine ⟨sortByNewest (applySearchFilter q (applyTimeFilter q (applyExpertiseFilter q
          (applyStatusFilter q (db.opportunities.filter (fun o => o.companyId != u.id)))))),
        db.opportunities.filter (fun o => o.companyId != u.id),
        sortByNewest_perm _, List.filter_sublist _, ?_, ?_, ?_, ?_, ?_, ?_⟩
      · intro h'; exact Option.noConfusion h'
      · exact hb2
      · exact hb3
      · simp only [getOpportunitiesHandler, getOpportunities, hu, hcb, hlp, if_true,
          Bool.false_eq_true, if_false]
      · simp only [getOpportunitiesHandler, getOpportunities, hu, hcb, hlp, if_true,
          Bool.false_eq_true, if_false]
        intro o ho
        exact ⟨o, ho, rfl, rfl, rfl⟩
      · simp only [getOpportunitiesHandler, getOpportunities, hu, hcb, hlp, if_true,
          Bool.false_eq_true, if_false]
        intro o0 ho0
        exact ⟨o0, ho0, rfl, rfl⟩
    · have hcb : (u.role == "Company") = false := by simp [hc]
      have hbase3 : ∀ u' : User, some u = some u' → u'.role = "Company"
          → db.opportunities = db.opportunities.filter (fun o => o.companyId != u'.id) := by
        intro u' hu' hc'
        cases Option.some.inj hu'
        exact absurd hc' hc
      by_cases hl : u.role = "LP"
      · have hlp : (u.role == "LP") = true := by simp [hl]
        refine ⟨sortByNewest (applySearchFilter q (applyTimeFilter q (applyExpertiseFilter q
            (applyStatusFilter q db.opportunities)))), db.opportunities,
          sortByNewest_perm _, List.Sublist.refl _, ?_, ?_, ?_, ?_, ?_, ?_⟩
        · intro _; rfl
        · intro _ _ _; rfl
        · exact hbase3
        · simp only [getOpportunitiesHandler, getOpportunities, hu, hcb, hlp, if_true,
            Bool.false_eq_true, if_false]
        · simp only [getOpportunitiesHandler, getOpportunities, hu, hcb, hlp, if_true,
            Bool.false_eq_true, if_false]
          intro o ho
          obtain ⟨o0, ho0, rfl⟩ := List.mem_map.mp ho
          exact ⟨o0, ho0, rfl, rfl, rfl⟩
        · simp only [getOpportunitiesHandler, getOpportunities, hu, hcb, hlp, if_true,
            Bool.false_eq_true, if_false]
          intro o0 ho0
          exact ⟨{ o0 with
              hasApplied := some (hasApplied (syncLoop now (sortByNewest (applySearchFilter q
                (applyTimeFilter q (applyExpertiseFilter q
                  (applyStatusFilter q db.opportunities))))) db).2 u.id o0.id) },
            List.mem_map_of_mem _ ho0, rfl, rfl⟩
      · have hlp : (u.role == "LP") = false := by simp [hl]
        refine ⟨sortByNewest (applySearchFilter q (applyTimeFilter q (applyExpertiseFilter q
            (applyStatusFilter q db.opportunities)))), db.opportunities,
          sortByNewest_perm _, List.Sublist.refl _, ?_, ?_, ?_, ?_, ?_, ?_⟩
        · intro _; rfl
        · intro _ _ _; rfl
        · exact hbase3
        · simp only [getOpportunitiesHandler, getOpportunities, hu, hcb, hlp,
            Bool.false_eq_true, if_false]
        · simp only [getOpportunitiesHandler, getOpportunities, hu, hcb, hlp,
            Bool.false_eq_true, if_false]
          intro o ho
          exact ⟨o, ho, rfl, rfl, rfl⟩
        · simp only [getOpportunitiesHandler, getOpportunities, hu, hcb, hlp,
            Bool.false_eq_true, if_false]
          intro o0 ho0
          exact ⟨o0, ho0, rfl, rfl⟩

/-- C1: after either listing read completes, every returned opportunity's
`applicantCount` equals the number of applications referencing it, and the
persisted store agrees on every record with that id. -/
theorem C1_listing_applicantCount_sync (db : DB)
    (hnd : (db.opportunities.map (fun o => o.id)).Nodup) :
    (∀ (callerId now : Nat) (q : ListQuery),
       ∀ o ∈ (getOpportunitiesHandler db callerId q now).1,
         o.applicantCount = countApps (getOpportunitiesHandler db callerId q now).2 o.id
         ∧ ∀ rec ∈ (getOpportunitiesHandler db callerId q now).2.opportunities,
             rec.id = o.id →
             rec.applicantCount = countApps (getOpportunitiesHandler db callerId q now).2 o.id)
    ∧ (∀ (callerId now : Nat) (res : List Opportunity) (db' : DB),
         getCompanyOpportunitiesHandler db callerId now = (Resp.ok 200 res, db') →
         ∀ o ∈ res,
           o.applicantCount = countApps db' o.id
           ∧ ∀ rec ∈ db'.opportunities, rec.id = o.id →
               rec.applicantCount = countApps db' o.id) := by
  constructor
  · intro callerId now q
    obtain ⟨S, base, hperm, hbase, _, _, _, heq2, hres, _⟩ :=
      getOpportunitiesHandler_shape db callerId q now
    have hsubl := (filters_sublist q base).trans hbase
    have hsub : ∀ o ∈ S, o ∈ db.opportunities :=
      fun o ho => hsubl.subset (hperm.mem_iff.mp ho)
    have hndl : (S.map (fun o => o.id)).Nodup := by
      have h2 := (hsubl.map (fun o => o.id)).nodup hnd
      exact ((hperm.map _).nodup_iff).mpr h2
    have hspec := sync_result_spec db hnd now S hsub hndl
    intro o ho
    obtain ⟨o0, ho0, hid, hcnt, _⟩ := hres o ho
    obtain ⟨h1, h2⟩ := hspec o0 ho0
    rw [heq2]
    refine ⟨?_, ?_⟩
    · rw [hcnt, hid]
      exact h1
    · intro rec hrec hrecid
      rw [hid]
      exact h2 rec hrec (hrecid.trans hid)
  · intro callerId now res db' hcall
    rcases hu : getUserById db callerId with _ | u
    · simp [getCompanyOpportunitiesHandler, hu] at hcall
    · by_cases hc : u.role = "Company"
      · have hcb : (u.role != "Company") = false := by simp [hc]
        simp only [getCompanyOpportunitiesHandler, getOpportunities, hu, hcb,
          Bool.false_eq_true, if_false] at hcall
        have h1 := congrArg Prod.fst hcall
        have h2 := congrArg Prod.snd hcall
        simp only at h1 h2
        injection h1 with _ h1v
        subst h1v
        subst h2
        have hsub : ∀ o ∈ db.opportunities.filter (fun o => o.companyId == u.id),
            o ∈ db.opportunities :=
          fun o ho => (List.filter_sublist _).subset ho
        have hndl : ((db.opportunities.filter (fun o => o.companyId == u.id)).map
            (fun o => o.id)).Nodup :=
          ((List.filter_sublist _).map _).nodup hnd
        have hspec := sync_result_spec db hnd now
          (db.opportunities.filter (fun o => o.companyId == u.id)) hsub hndl
        intro o ho
        exact hspec o (sortByNewest_mem.mp ho)
      · have hcb : (u.role != "Company") = true := by simp [hc]
        simp only [getCompanyOpportunitiesHandler, getOpportunities, hu, hcb, if_true] at hcall
        cases hcall

/-- A store with two opportunities (one of them holding a stale applicant
count) and one application, used to instantiate the listing invariant. -/
def wDB1 : DB :=
  { users := []
    opportunities :=
      [{ id := 5, title := "Advisor Needed", description := "d", requiredExpertise := ["Marketing"]
         timeCommitment := "5-10 hours/month", compensation := "Equity", companyId := 1
         companyName := "Acme", status := "open", viewCount := 0, applicantCount := 0
         createdAt := 10, updatedAt := 10 },
       { id := 6, title := "Second", description := "d", requiredExpertise := ["Sales"]
         timeCommitment := "t", compensation := "c", companyId := 1
         companyName := "Acme", status := "closed", viewCount := 2, applicantCount := 3
         createdAt := 11, updatedAt := 11 }]
    applications :=
      [{ id := 7, lpId := 2, lpName := "B B", lpEmail := "b@x.com", opportunityId := 5
         opportunityTitle := "Advisor Needed", companyId := 1, companyName := "Acme"
         status := "pending", createdAt := 12, updatedAt := 12 }] }

theorem C1_listing_applicantCount_sync_witness :
    ((wDB1.opportunities.map (fun o => o.id)).Nodup)
    ∧ (∀ o ∈ (getOpportunitiesHandler wDB1 9 { status := some "all" } 20).1,
        o.applicantCount
          = countApps (getOpportunitiesHandler wDB1 9 { status := some "all" } 20).2 o.id
        ∧ ∀ rec ∈ (getOpportunitiesHandler wDB1 9 { status := some "all" } 20).2.opportunities,
            rec.id = o.id →
            rec.applicantCount
              = countApps (getOpportunitiesHandler wDB1 9 { status := some "all" } 20).2 o.id) :=
  ⟨by decide,
   (C1_listing_applicantCount_sync wDB1 (by decide)).1 9 20 { status := some "all" }⟩

/-- A store with a Company owner (id 1), an Admin (id 9) and one opportunity
owned by the company, used to exercise the three mutation endpoints. -/
def c2DB : DB :=
  { users :=
      [{ id := 1, role := "Company", firstName := "A", lastName := "A", email := "a@x.com"
         companyName := some "Acme" },
       { id := 9, role := "Admin", firstName := "C", lastName := "C", email := "c@x.com" }]
    opportunities :=
      [{ id := 5, title := "Advisor Needed", description := "d", requiredExpertise := ["Marketing"]
         timeCommitment := "t", compensation := "c", companyId := 1
         companyName := "Acme", status := "open", viewCount := 0, applicantCount := 0
         createdAt := 10, updatedAt := 10 }]
    applications := [] }

/-- A fully valid full-update request body. -/
def c2Body : UpdateBody :=
  { title := some "New Title", description := some "New description"
    requiredExpertise := some ["Ops"], timeCommitment := some "1h", compensation := some "Cash" }

/-- C2 (code bug): the full-update endpoint rejects an Admin with 403
`Company role required` before its admin-ownership clause can run, although
the same Admin succeeds on patch and delete; the handler's own documentation
says admins can edit any opportunity. -/
theorem C2_admin_update_denied :
    (updateOpportunityHandler c2DB 9 5 c2Body 20).1
        = Resp.err 403 "Access denied. Company role required."
    ∧ (updateOpportunityHandler c2DB 9 5 c2Body 20).2 = c2DB
    ∧ ((patchOpportunityHandler c2DB 9 5 { status := some "closed" } 20).1).code = 200
    ∧ ((deleteOpportunityHandler c2DB 9 5).1).code = 200 := by
  refine ⟨rfl, rfl, rfl, rfl⟩

/-- A User found by id carries that id. -/
theorem getUserById_id {db : DB} {i : Nat} {u : User}
    (h : getUserById db i = some u) : u.id = i := by
  have := List.find?_some h
  simpa using this

/-- A store where LP 2 has already applied to opportunity 5, whose status has
meanwhile left `open`. -/
def c3DB : DB :=
  { users :=
      [{ id := 2, role := "LP", firstName := "B", lastName := "B", email := "b@x.com" }]
    opportunities :=
      [{ id := 5, title := "Advisor Needed", description := "d", requiredExpertise := ["Marketing"]
         timeCommitment := "t", compensation := "c", companyId := 1
         companyName := "Acme", status := "filled", viewCount := 0, applicantCount := 1
         createdAt := 10, updatedAt := 10 }]
    applications :=
      [{ id := 7, lpId := 2, lpName := "B B", lpEmail := "b@x.com", opportunityId := 5
         opportunityTitle := "Advisor Needed", companyId := 1, companyName := "Acme"
         status := "pending", createdAt := 12, updatedAt := 12 }] }

/-- C3 counterexample: with an existing `(lpId, opportunityId)` application
but a no-longer-open opportunity, a further apply call answers the
`InvalidStateError` message, not the `DuplicateError` one, because the status
check runs before the duplicate check. -/
theorem C3_statusCheck_precedes_duplicate :
    hasApplied c3DB 2 5 = true
    ∧ (applyToOpportunityHandler c3DB 2 5 20).1
        = Resp.err 400 "This opportunity is not open for applications"
    ∧ (applyToOpportunityHandler c3DB 2 5 20).1
        ≠ Resp.err 400 "You have already applied to this opportunity" := by
  refine ⟨rfl, rfl, by decide⟩

/-- C3 (amended): a duplicate apply against a still-open opportunity is
answered with the duplicate-rejection message and leaves the store untouched;
and whenever the pair already exists, no apply call ever changes the
applications collection, so at most one application per pair exists. -/
theorem C3_duplicate_apply_rejected (db : DB) (uid oppId now : Nat) :
    (∀ (u : User) (o : Opportunity), getUserById db uid = some u → u.role = "LP" →
       getOpportunityById db oppId = some o → o.status = "open" →
       hasApplied db uid oppId = true →
       applyToOpportunityHandler db uid oppId now
         = (Resp.err 400 "You have already applied to this opportunity", db))
    ∧ (hasApplied db uid oppId = true →
       (applyToOpportunityHandler db uid oppId now).2.applications = db.applications) := by
  constructor
  · intro u o hu hrole hopp hst hdup
    have huid : u.id = uid := getUserById_id hu
    have h1 : (u.role != "LP") = false := by simp [hrole]
    have h2 : (o.status != "open") = false := by simp [hst]
    have h3 : hasApplied db u.id oppId = true := by rw [huid]; exact hdup
    simp [applyToOpportunityHandler, hu, hopp, h1, h2, h3]
  · intro hdup
    rcases hu : getUserById db uid with _ | u
    · simp [applyToOpportunityHandler, hu]
    · have huid : u.id = uid := getUserById_id hu
      by_cases hrole : u.role = "LP"
      · have h1 : (u.role != "LP") = false := by simp [hrole]
        rcases hopp : getOpportunityById db oppId with _ | o
        · simp [applyToOpportunityHandler, hu, h1, hopp]
        · by_cases hst : o.status = "open"
          · have h2 : (o.status != "open") = false := by simp [hst]
            have h3 : hasApplied db u.id oppId = true := by rw [huid]; exact hdup
            simp [applyToOpportunityHandler, hu, h1, hopp, h2, h3]
          · have h2 : (o.status != "open") = true := by simp [hst]
            simp [applyToOpportunityHandler, hu, h1, hopp, h2]
      · have h1 : (u.role != "LP") = true := by simp [hrole]
        simp [applyToOpportunityHandler, hu, h1]

/-- A still-open variant of the duplicate-application store. -/
def c3OpenDB : DB :=
  { c3DB with
    opportunities :=
      [{ id := 5, title := "Advisor Needed", description := "d", requiredExpertise := ["Marketing"]
         timeCommitment := "t", compensation := "c", companyId := 1
         companyName := "Acme", status := "open", viewCount := 0, applicantCount := 1
         createdAt := 10, updatedAt := 10 }] }

theorem C3_duplicate_apply_rejected_witness :
    (getUserById c3OpenDB 2
        = some { id := 2, role := "LP", firstName := "B", lastName := "B", email := "b@x.com" }
      ∧ hasApplied c3OpenDB 2 5 = true)
    ∧ applyToOpportunityHandler c3OpenDB 2 5 20
        = (Resp.err 400 "You have already applied to this opportunity", c3OpenDB) :=
  ⟨⟨by decide, by decide⟩,
   (C3_duplicate_apply_rejected c3OpenDB 2 5 20).1
     { id := 2, role := "LP", firstName := "B", lastName := "B", email := "b@x.com" }
     { id := 5, title := "Advisor Needed", description := "d", requiredExpertise := ["Marketing"]
       timeCommitment := "t", compensation := "c", companyId := 1
       companyName := "Acme", status := "open", viewCount := 0, applicantCount := 1
       createdAt := 10, updatedAt := 10 }
     (by decide) (by decide) (by decide) (by decide) (by decide)⟩

/-- A store whose only opportunity is closed, with an LP who has not yet
applied. -/
def c4DB : DB :=
  { users :=
      [{ id := 2, role := "LP", firstName := "B", lastName := "B", email := "b@x.com" }]
    opportunities :=
      [{ id := 5, title := "Advisor Needed", description := "d", requiredExpertise := ["Marketing"]
         timeCommitment := "t", compensation := "c", companyId := 1
         companyName := "Acme", status := "closed", viewCount := 0, applicantCount := 0
         createdAt := 10, updatedAt := 10 }]
    applications := [] }

/-- C4: applying to an existing opportunity whose status is not `open` is
rejected with 400 `not open for applications` and leaves the whole store (in
particular the applications collection and the opportunity) unchanged. -/
theorem C4_apply_not_open (db : DB) (uid oppId now : Nat) (u : User) (o : Opportunity)
    (hu : getUserById db uid = some u) (hrole : u.role = "LP")
    (hopp : getOpportunityById db oppId = some o) (hst : o.status ≠ "open") :
    applyToOpportunityHandler db uid oppId now
      = (Resp.err 400 "This opportunity is not open for applications", db) := by
  have h1 : (u.role != "LP") = false := by simp [hrole]
  have h2 : (o.status != "open") = true := by simp [hst]
  simp [applyToOpportunityHandler, hu, hopp, h1, h2]

theorem C4_apply_not_open_witness :
    (getUserById c4DB 2
        = some { id := 2, role := "LP", firstName := "B", lastName := "B", email := "b@x.com" }
      ∧ ({ id := 5, title := "Advisor Needed", description := "d"
           requiredExpertise := ["Marketing"], timeCommitment := "t", compensation := "c"
           companyId := 1, companyName := "Acme", status := "closed", viewCount := 0
           applicantCount := 0, createdAt := 10, updatedAt := 10 : Opportunity }).status ≠ "open")
    ∧ applyToOpportunityHandler c4DB 2 5 20
        = (Resp.err 400 "This opportunity is not open for applications", c4DB) :=
  ⟨⟨by decide, by decide⟩,
   C4_apply_not_open c4DB 2 5 20
     { id := 2, role := "LP", firstName := "B", lastName := "B", email := "b@x.com" }
     { id := 5, title := "Advisor Needed", description := "d", requiredExpertise := ["Marketing"]
       timeCommitment := "t", compensation := "c", companyId := 1
       companyName := "Acme", status := "closed", viewCount := 0, applicantCount := 0
       createdAt := 10, updatedAt := 10 }
     (by decide) (by decide) (by decide) (by decide)⟩

/-- A merge whose body carries no `companyId` key leaves every record's
`companyId` (and id) as some source record had it. -/
theorem updateOpportunity_preserves_companyId {u : OppUpdates} (h : u.companyId = none)
    (db : DB) (i now : Nat) :
    ∀ r ∈ (updateOpportunity db i u now).2.opportunities,
      ∃ s ∈ db.opportunities, r.id = s.id ∧ r.companyId = s.companyId := by
  unfold updateOpportunity
  rcases hset : setFirstOpp i u now db.opportunities with _ | ⟨r0, l⟩
  · intro r hr
    exact ⟨r, hr, rfl, rfl⟩
  · intro r hr
    simp only at hr
    rcases setFirstOpp_mem_source hset r hr with hm | ⟨y, hy, rfl⟩
    · exact ⟨r, hm, rfl, rfl⟩
    · exact ⟨y, hy, mergeOpp_id y u now, mergeOpp_companyId_of_none h y now⟩

/-- The full-update handler either leaves the store alone or performs one
merge whose body has no `companyId` key. -/
theorem updateOpportunityHandler_state (db : DB) (uid oppId : Nat) (b : UpdateBody) (now : Nat) :
    (updateOpportunityHandler db uid oppId b now).2 = db
    ∨ ∃ u : OppUpdates, u.companyId = none
        ∧ (updateOpportunityHandler db uid oppId b now).2 = (updateOpportunity db oppId u now).2 := by
  simp only [updateOpportunityHandler]
  repeat' split
  all_goals
    first
      | exact Or.inl rfl
      | (rename_i heq
         exact Or.inr ⟨_, rfl, (congrArg Prod.snd heq).symm⟩)

/-- The patch handler either leaves the store alone or performs one merge of
exactly the request body. -/
theorem patchOpportunityHandler_state (db : DB) (uid oppId : Nat) (p : OppUpdates) (now : Nat) :
    (patchOpportunityHandler db uid oppId p now).2 = db
    ∨ (patchOpportunityHandler db uid oppId p now).2 = (updateOpportunity db oppId p now).2 := by
  simp only [patchOpportunityHandler]
  repeat' split
  all_goals
    first
      | exact Or.inl rfl
      | (rename_i heq
         exact Or.inr (congrArg Prod.snd heq).symm)

/-- A store with a Company owner (id 1) and its opportunity (id 5). -/
def c5DB : DB :=
  { users :=
      [{ id := 1, role := "Company", firstName := "A", lastName := "A", email := "a@x.com"
         companyName := some "Acme" }]
    opportunities :=
      [{ id := 5, title := "Advisor Needed", description := "d", requiredExpertise := ["Marketing"]
         timeCommitment := "t", compensation := "c", companyId := 1
         companyName := "Acme", status := "open", viewCount := 0, applicantCount := 0
         createdAt := 10, updatedAt := 10 }]
    applications := [] }

/-- C5 counterexample: a patch whose body carries a `companyId` key rewrites
the stored `companyId` (1 becomes 999), so the field is not immutable. -/
theorem C5_patch_changes_companyId :
    ((getOpportunityById c5DB 5).map (fun o => o.companyId) = some 1)
    ∧ ((patchOpportunityHandler c5DB 1 5 { companyId := some 999 } 20).1).code = 200
    ∧ ((getOpportunityById
          (patchOpportunityHandler c5DB 1 5 { companyId := some 999 } 20).2 5).map
        (fun o => o.companyId) = some 999) :=
  ⟨rfl, rfl, rfl⟩

/-- C5 (amended): the full update never changes any record's `companyId`, and
a patch preserves it whenever the request body carries no `companyId` key;
only a patch body that explicitly includes `companyId` can rewrite it. -/
theorem C5_companyId_preserved_unless_patched (db : DB) (uid oppId now : Nat) :
    (∀ b : UpdateBody,
       ∀ r ∈ (updateOpportunityHandler db uid oppId b now).2.opportunities,
         ∃ s ∈ db.opportunities, r.id = s.id ∧ r.companyId = s.companyId)
    ∧ (∀ p : OppUpdates, p.companyId = none →
       ∀ r ∈ (patchOpportunityHandler db uid oppId p now).2.opportunities,
         ∃ s ∈ db.opportunities, r.id = s.id ∧ r.companyId = s.companyId) := by
  constructor
  · intro b r hr
    rcases updateOpportunityHandler_state db uid oppId b now with heq | ⟨u0, hnone, heq⟩
    · rw [heq] at hr
      exact ⟨r, hr, rfl, rfl⟩
    · rw [heq] at hr
      exact updateOpportunity_preserves_companyId hnone db oppId now r hr
  · intro p hnone r hr
    rcases patchOpportunityHandler_state db uid oppId p now with heq | heq
    · rw [heq] at hr
      exact ⟨r, hr, rfl, rfl⟩
    · rw [heq] at hr
      exact updateOpportunity_preserves_companyId hnone db oppId now r hr

theorem C5_companyId_preserved_unless_patched_witness :
    (({ status := some "closed" } : OppUpdates).companyId = none)
    ∧ (∀ r ∈ (patchOpportunityHandler c5DB 1 5 { status := some "closed" } 20).2.opportunities,
        ∃ s ∈ c5DB.opportunities, r.id = s.id ∧ r.companyId = s.companyId) :=
  ⟨by decide,
   (C5_companyId_preserved_unless_patched c5DB 1 5 20).2 { status := some "closed" } rfl⟩

theorem applyExpertiseFilter_none {q : ListQuery} (h : q.expertise = none)
    (l : List Opportunity) : applyExpertiseFilter q l = l := by
  simp [applyExpertiseFilter, h]

theorem applyTimeFilter_none {q : ListQuery} (h : q.timeCommitment = none)
    (l : List Opportunity) : applyTimeFilter q l = l := by
  simp [applyTimeFilter, h]

theorem applySearchFilter_none {q : ListQuery} (h : q.search = none)
    (l : List Opportunity) : applySearchFilter q l = l := by
  simp [applySearchFilter, h]

/-- With no status parameter the destructuring default `open` kicks in, so the
status filter keeps exactly the open opportunities. -/
theorem applyStatusFilter_none_mem {q : ListQuery} (h : q.status = none)
    {l : List Opportunity} {o : Opportunity} :
    o ∈ applyStatusFilter q l ↔ o ∈ l ∧ o.status = "open" := by
  have hc : ((("open" : String) != "") && (("open" : String) != "all")) = true := by decide
  simp [applyStatusFilter, h, hc, List.mem_filter]

/-- A store holding one closed opportunity only. -/
def c6DB : DB :=
  { users := []
    opportunities :=
      [{ id := 6, title := "Closed One", description := "d", requiredExpertise := ["Sales"]
         timeCommitment := "t", compensation := "c", companyId := 1
         companyName := "Acme", status := "closed", viewCount := 0, applicantCount := 0
         createdAt := 11, updatedAt := 11 }]
    applications := [] }

/-- C6 counterexample: a discovery request that provides no status filter
drops the closed opportunity entirely, so it does not return opportunities of
every status. -/
theorem C6_default_excludes_nonopen :
    (∃ o ∈ c6DB.opportunities, o.status = "closed")
    ∧ (getOpportunitiesHandler c6DB 42 {} 20).1 = [] := by
  decide

/-- C6 (amended): the status filter is skipped only for an explicit `all` (or
empty) value; with no status provided it defaults to `open`, so the listing
returns exactly the open opportunities (subject to the other filter steps). -/
theorem C6_status_filter_default_open (db : DB) (callerId now : Nat) (q : ListQuery)
    (h1 : q.status = none) :
    (∀ o ∈ (getOpportunitiesHandler db callerId q now).1, o.status = "open")
    ∧ (q.expertise = none → q.timeCommitment = none → q.search = none →
       ∀ o ∈ db.opportunities, o.status = "open" →
         (∀ u : User, getUserById db callerId = some u → u.role = "Company"
            → o.companyId ≠ u.id) →
         ∃ o' ∈ (getOpportunitiesHandler db callerId q now).1,
           o'.id = o.id ∧ o'.status = "open") := by
  obtain ⟨S, base, hperm, hbase, hb1, hb2, hb3, heq2, hres, hcompl⟩ :=
    getOpportunitiesHandler_shape db callerId q now
  constructor
  · intro o ho
    obtain ⟨o0, ho0, _, _, hstat⟩ := hres o ho
    rw [syncLoop_fst] at ho0
    obtain ⟨src, hsrc, rfl⟩ := List.mem_map.mp ho0
    have hchain := hperm.mem_iff.mp hsrc
    have hs1 : src ∈ applyTimeFilter q (applyExpertiseFilter q (applyStatusFilter q base)) :=
      (applySearchFilter_sublist q _).subset hchain
    have hs2 : src ∈ applyExpertiseFilter q (applyStatusFilter q base) :=
      (applyTimeFilter_sublist q _).subset hs1
    have hs3 : src ∈ applyStatusFilter q base :=
      (applyExpertiseFilter_sublist q _).subset hs2
    have hopen := ((applyStatusFilter_none_mem h1).mp hs3).2
    rw [hstat]
    exact hopen
  · intro he ht hs o ho hopen hcomp
    have hobase : o ∈ base := by
      rcases hu : getUserById db callerId with _ | u
      · rw [hb1 hu]; exact ho
      · by_cases hcu : u.role = "Company"
        · rw [hb3 u hu hcu]
          refine List.mem_filter.mpr ⟨ho, ?_⟩
          have hne := hcomp u hu hcu
          simp [hne]
        · rw [hb2 u hu hcu]; exact ho
    have hchain : o ∈ applySearchFilter q (applyTimeFilter q (applyExpertiseFilter q
        (applyStatusFilter q base))) := by
      rw [applySearchFilter_none hs, applyTimeFilter_none ht, applyExpertiseFilter_none he]
      exact (applyStatusFilter_none_mem h1).mpr ⟨hobase, hopen⟩
    have hSmem : o ∈ S := hperm.mem_iff.mpr hchain
    have ho0 : ({ o with applicantCount := countApps db o.id }) ∈ (syncLoop now S db).1 := by
      rw [syncLoop_fst]
      exact List.mem_map_of_mem _ hSmem
    obtain ⟨o', ho', hid, hstat⟩ := hcompl _ ho0
    exact ⟨o', ho', hid, by rw [hstat]; exact hopen⟩

theorem C6_status_filter_default_open_witness :
    (({} : ListQuery).status = none)
    ∧ (∀ o ∈ (getOpportunitiesHandler c6DB 42 {} 20).1, o.status = "open") :=
  ⟨rfl, (C6_status_filter_default_open c6DB 42 20 {} rfl).1⟩

instance : IsTotal ScoredOpportunity byScore :=
  ⟨fun a b => Nat.le_total b.matchScore a.matchScore⟩

instance : IsTrans ScoredOpportunity byScore :=
  ⟨fun _ _ _ hab hbc => Nat.le_trans hbc hab⟩

/-- The score the specification describes: `round(100 * overlapCount /
max(1, |requiredExpertise|))`, computed over the `requiredExpertise` field. -/
def specMatchScore (u : User) (o : Opportunity) : Nat :=
  jsRound100
    (lpMatchCount (u.expertise.getD (u.expertiseAreas.getD [])) o.requiredExpertise)
    (max 1 o.requiredExpertise.length)

/-- An LP and an opportunity with an empty required-expertise set. -/
def c7LP : User :=
  { id := 2, role := "LP", firstName := "B", lastName := "B", email := "b@x.com"
    expertise := some ["Marketing"] }

def c7Opp : Opportunity :=
  { id := 5, title := "Advisor Needed", description := "d", requiredExpertise := []
    timeCommitment := "t", compensation := "c", companyId := 1
    companyName := "Acme", status := "open", viewCount := 0, applicantCount := 0
    createdAt := 10, updatedAt := 10 }

def c7DB : DB :=
  { users := [c7LP], opportunities := [c7Opp], applications := [] }

/-- C7 counterexample: the specification's formula gives 0 for an empty
required-expertise set, but the LP retrieval path returns matchScore 50 for
that opportunity (the code scores the `expertiseNeeded` field and falls back
to the constant 50 when it is empty or absent). -/
theorem C7_empty_expertise_scores_50 :
    specMatchScore c7LP c7Opp = 0
    ∧ lpGetOpportunitiesHandler c7DB 2
        = Resp.ok 200 [{ opp := c7Opp, matchScore := 50, isRelevant := true }] := by
  decide

/-- C7 (amended): the LP retrieval path returns exactly the open
opportunities, sorted descending by matchScore, where the score is
`round(100 * overlap / |expertiseNeeded|)` over the `expertiseNeeded` field
when that list is non-empty and the constant 50 otherwise (in particular 50,
not 0, for an empty list). -/
theorem C7_match_scoring (db : DB) (callerId : Nat) (u : User)
    (hu : getUserById db callerId = some u) (hrole : u.role = "LP") :
    ∃ l, lpGetOpportunitiesHandler db callerId = Resp.ok 200 l
      ∧ List.Sorted byScore l
      ∧ (∀ s ∈ l, s.opp ∈ db.opportunities ∧ s.opp.status = "open"
          ∧ s.matchScore = (if s.opp.expertiseNeeded.length > 0
              then jsRound100
                (lpMatchCount (u.expertise.getD (u.expertiseAreas.getD []))
                  s.opp.expertiseNeeded)
                s.opp.expertiseNeeded.length
              else 50)
          ∧ s.isRelevant = decide (s.matchScore > 30))
      ∧ (∀ o ∈ db.opportunities, o.status = "open" → ∃ s ∈ l, s.opp = o) := by
  have h1 : (u.role != "LP") = false := by simp [hrole]
  refine ⟨List.insertionSort byScore
      (((getOpportunities db).filter (fun o => o.status == "open")).map (lpScore u)),
    ?_, ?_, ?_, ?_⟩
  · simp [lpGetOpportunitiesHandler, hu, h1]
  · exact List.sorted_insertionSort byScore _
  · intro s hs
    have hs' := (List.perm_insertionSort byScore _).subset hs
    obtain ⟨o, ho, rfl⟩ := List.mem_map.mp hs'
    have hof := List.mem_filter.mp ho
    refine ⟨hof.1, by simpa using hof.2, rfl, rfl⟩
  · intro o ho hopen
    refine ⟨lpScore u o, ?_, rfl⟩
    apply (List.perm_insertionSort byScore _).mem_iff.mpr
    exact List.mem_map_of_mem _ (List.mem_filter.mpr ⟨ho, by simp [hopen]⟩)

theorem C7_match_scoring_witness :
    (getUserById c7DB 2 = some c7LP ∧ c7LP.role = "LP")
    ∧ ∃ l, lpGetOpportunitiesHandler c7DB 2 = Resp.ok 200 l
        ∧ List.Sorted byScore l
        ∧ (∀ s ∈ l, s.opp ∈ c7DB.opportunities ∧ s.opp.status = "open"
            ∧ s.matchScore = (if s.opp.expertiseNeeded.length > 0
                then jsRound100
                  (lpMatchCount (c7LP.expertise.getD (c7LP.expertiseAreas.getD []))
                    s.opp.expertiseNeeded)
                  s.opp.expertiseNeeded.length
                else 50)
            ∧ s.isRelevant = decide (s.matchScore > 30))
        ∧ (∀ o ∈ c7DB.opportunities, o.status = "open" → ∃ s ∈ l, s.opp = o) :=
  ⟨⟨by decide, rfl⟩, C7_match_scoring c7DB 2 c7LP (by decide) rfl⟩

/-- Calling the view-tracking endpoint `n` times in sequence. -/
def trackViews (db : DB) (oppId now : Nat) : Nat → DB
  | 0 => db
  | n + 1 => trackViews (trackOpportunityViewHandler db oppId now).2 oppId now n

/-- C8: for an existing opportunity, `n` track-view calls raise the persisted
`viewCount` by exactly `n`, and the next call answers the incremented value;
nothing about the caller enters the computation, so there is no
deduplication by identity. -/
theorem C8_trackView_increments (db : DB) (oppId now : Nat) (o : Opportunity)
    (h : getOpportunityById db oppId = some o) :
    ∀ n : Nat,
      (∃ r, getOpportunityById (trackViews db oppId now n) oppId = some r
        ∧ r.viewCount = o.viewCount + n)
      ∧ (trackOpportunityViewHandler (trackViews db oppId now n) oppId now).1
          = Resp.ok 200 (o.viewCount + n + 1) := by
  intro n
  induction n generalizing db o with
  | zero =>
    refine ⟨⟨o, h, rfl⟩, ?_⟩
    simp [trackOpportunityViewHandler, trackViews, h]
  | succ n ih =>
    have hdb1 : (trackOpportunityViewHandler db oppId now).2
        = (updateOpportunity db oppId { viewCount := some (o.viewCount + 1) } now).2 := by
      simp [trackOpportunityViewHandler, h]
    have h1' : getOpportunityById (trackOpportunityViewHandler db oppId now).2 oppId
        = some (mergeOpp o { viewCount := some (o.viewCount + 1) } now) := by
      rw [hdb1]
      exact (updateOpportunity_of_find? h { viewCount := some (o.viewCount + 1) } now).2
    have hstep : trackViews db oppId now (n + 1)
        = trackViews (trackOpportunityViewHandler db oppId now).2 oppId now n := rfl
    obtain ⟨⟨r, hr, hrv⟩, hresp⟩ :=
      ih (trackOpportunityViewHandler db oppId now).2
        (mergeOpp o { viewCount := some (o.viewCount + 1) } now) h1'
    have hmv : (mergeOpp o { viewCount := some (o.viewCount + 1) } now).viewCount
        = o.viewCount + 1 := rfl
    constructor
    · refine ⟨r, ?_, ?_⟩
      · rw [hstep]; exact hr
      · rw [hrv, hmv]; omega
    · rw [hstep, hresp, hmv]
      have : o.viewCount + 1 + n + 1 = o.viewCount + (n + 1) + 1 := by omega
      rw [this]

/-- A store holding one opportunity with two recorded views. -/
def c8DB : DB :=
  { users := []
    opportunities :=
      [{ id := 5, title := "Advisor Needed", description := "d", requiredExpertise := ["Marketing"]
         timeCommitment := "t", compensation := "c", companyId := 1
         companyName := "Acme", status := "open", viewCount := 2, applicantCount := 0
         createdAt := 10, updatedAt := 10 }]
    applications := [] }

theorem C8_trackView_increments_witness :
    (getOpportunityById c8DB 5
        = some { id := 5, title := "Advisor Needed", description := "d"
                 requiredExpertise := ["Marketing"], timeCommitment := "t", compensation := "c"
                 companyId := 1, companyName := "Acme", status := "open", viewCount := 2
                 applicantCount := 0, createdAt := 10, updatedAt := 10 })
    ∧ ((∃ r, getOpportunityById (trackViews c8DB 5 20 3) 5 = some r ∧ r.viewCount = 2 + 3)
       ∧ (trackOpportunityViewHandler (trackViews c8DB 5 20 3) 5 20).1
           = Resp.ok 200 (2 + 3 + 1)) :=
  ⟨by decide,
   C8_trackView_increments c8DB 5 20
     { id := 5, title := "Advisor Needed", description := "d"
       requiredExpertise := ["Marketing"], timeCommitment := "t", compensation := "c"
       companyId := 1, companyName := "Acme", status := "open", viewCount := 2
       applicantCount := 0, createdAt := 10, updatedAt := 10 }
     (by decide) 3⟩

/-- A store with one LP and one orphaned application (its opportunity 5 was
hard-deleted). -/
def c9DB : DB :=
  { users :=
      [{ id := 2, role := "LP", firstName := "B", lastName := "B", email := "b@x.com" }]
    opportunities := []
    applications :=
      [{ id := 7, lpId := 2, lpName := "B B", lpEmail := "b@x.com", opportunityId := 5
         opportunityTitle := "Advisor Needed", companyId := 1, companyName := "Acme"
         status := "pending", createdAt := 12, updatedAt := 12 }] }

/-- C9 counterexample: an LP actor calling updateStatus on the orphaned
application receives 403 at the role gate, not the 404 the claim promises for
every actor. -/
theorem C9_lp_actor_gets_403 :
    ((getApplications c9DB).find? (fun a => a.id == 7)).isSome = true
    ∧ getOpportunityById c9DB 5 = none
    ∧ (updateApplicationStatusHandler c9DB 2 7 (some "accepted") 20).1
        = Resp.err 403 "Access denied. Company role required." := by
  decide

/-- C9 (amended): when an application's opportunity no longer exists, every
Company or Admin actor requesting a valid status receives 404 `Associated
opportunity not found` and the store is untouched; LP actors are rejected
earlier with 403; for every actor and requested status the store (hence the
application's status) is unchanged. -/
theorem C9_orphaned_application_locked (db : DB) (uid appId now : Nat) :
    (∀ (u : User) (s : String) (app : Application),
       getUserById db uid = some u → (u.role = "Company" ∨ u.role = "Admin") →
       s ∈ validAppStatuses →
       (getApplications db).find? (fun a => a.id == appId) = some app →
       getOpportunityById db app.opportunityId = none →
       updateApplicationStatusHandler db uid appId (some s) now
         = (Resp.err 404 "Associated opportunity not found", db))
    ∧ (∀ (st : Option String) (app : Application),
       (getApplications db).find? (fun a => a.id == appId) = some app →
       getOpportunityById db app.opportunityId = none →
       (updateApplicationStatusHandler db uid appId st now).2 = db) := by
  constructor
  · intro u s app hu hrole hs happ hopp
    have h1 : (u.role != "Company" && u.role != "Admin") = false := by
      rcases hrole with h | h <;> simp [h]
    have hsne : s ≠ "" := by
      intro he
      subst he
      simp [validAppStatuses] at hs
    simp [updateApplicationStatusHandler, hu, h1, happ, hopp, hsne, hs]
  · intro st app happ hopp
    rcases hu : getUserById db uid with _ | u
    · simp [updateApplicationStatusHandler, hu]
    · by_cases hr : (u.role != "Company" && u.role != "Admin") = true
      · simp [updateApplicationStatusHandler, hu, hr]
      · have hr' : (u.role != "Company" && u.role != "Admin") = false :=
          eq_false_of_ne_true hr
        rcases st with _ | s
        · simp [updateApplicationStatusHandler, hu, hr']
        · by_cases hse : s = ""
          · simp [updateApplicationStatusHandler, hu, hr', hse]
          · by_cases hsm : s ∈ validAppStatuses
            · simp [updateApplicationStatusHandler, hu, hr', hse, hsm, happ, hopp]
            · simp [updateApplicationStatusHandler, hu, hr', hse, hsm]

/-- A Company owner facing the same orphaned application. -/
def c9wCompany : User :=
  { id := 1, role := "Company", firstName := "A", lastName := "A", email := "a@x.com"
    companyName := some "Acme" }

def c9wApp : Application :=
  { id := 7, lpId := 2, lpName := "B B", lpEmail := "b@x.com", opportunityId := 5
    opportunityTitle := "Advisor Needed", companyId := 1, companyName := "Acme"
    status := "pending", createdAt := 12, updatedAt := 12 }

def c9wDB : DB :=
  { users := [c9wCompany], opportunities := [], applications := [c9wApp] }

theorem C9_orphaned_application_locked_witness :
    (getUserById c9wDB 1 = some c9wCompany
      ∧ (c9wCompany.role = "Company" ∨ c9wCompany.role = "Admin")
      ∧ "accepted" ∈ validAppStatuses
      ∧ (getApplications c9wDB).find? (fun a => a.id == 7) = some c9wApp
      ∧ getOpportunityById c9wDB c9wApp.opportunityId = none)
    ∧ updateApplicationStatusHandler c9wDB 1 7 (some "accepted") 20
        = (Resp.err 404 "Associated opportunity not found", c9wDB) :=
  ⟨⟨by decide, Or.inl rfl, by decide, by decide, by decide⟩,
   (C9_orphaned_application_locked c9wDB 1 7 20).1 c9wCompany "accepted" c9wApp
     (by decide) (Or.inl rfl) (by decide) (by decide) (by decide)⟩

/-- C10: creation assigns `max(ids, 0) + 1` as the new id, which is strictly
greater than every existing id in the collection, so pairwise-distinct ids
stay pairwise distinct, for opportunities and for applications alike. -/
theorem C10_id_assignment :
    ∀ (db : DB) (d : OppData) (a : AppData) (now : Nat),
      ((createOpportunity db d now).1.id
          = maxId0 (db.opportunities.map (fun o => o.id)) + 1
        ∧ (∀ r ∈ db.opportunities, r.id < (createOpportunity db d now).1.id)
        ∧ ((db.opportunities.map (fun o => o.id)).Nodup →
            ((createOpportunity db d now).2.opportunities.map (fun o => o.id)).Nodup))
      ∧ ((createApplication db a now).1.id
          = maxId0 (db.applications.map (fun x => x.id)) + 1
        ∧ (∀ r ∈ db.applications, r.id < (createApplication db a now).1.id)
        ∧ ((db.applications.map (fun x => x.id)).Nodup →
            ((createApplication db a now).2.applications.map (fun x => x.id)).Nodup)) := by
  intro db d a now
  constructor
  · refine ⟨rfl, ?_, ?_⟩
    · intro r hr
      have hle : r.id ≤ maxId0 (db.opportunities.map (fun o => o.id)) :=
        le_maxId0 (List.mem_map_of_mem (fun o => o.id) hr)
      have hid : (createOpportunity db d now).1.id
          = maxId0 (db.opportunities.map (fun o => o.id)) + 1 := rfl
      omega
    · intro hnd
      have hl : (createOpportunity db d now).2.opportunities
          = db.opportunities ++ [(createOpportunity db d now).1] := rfl
      rw [hl, List.map_append, List.nodup_append]
      refine ⟨hnd, List.nodup_singleton _, ?_⟩
      intro x hx
      simp only [List.map_cons, List.map_nil, List.mem_singleton]
      intro hxeq
      have hle := le_maxId0 hx
      have hid : (createOpportunity db d now).1.id
          = maxId0 (db.opportunities.map (fun o => o.id)) + 1 := rfl
      omega
  · refine ⟨rfl, ?_, ?_⟩
    · intro r hr
      have hle : r.id ≤ maxId0 (db.applications.map (fun x => x.id)) :=
        le_maxId0 (List.mem_map_of_mem (fun x => x.id) hr)
      have hid : (createApplication db a now).1.id
          = maxId0 (db.applications.map (fun x => x.id)) + 1 := rfl
      omega
    · intro hnd
      have hl : (createApplication db a now).2.applications
          = db.applications ++ [(createApplication db a now).1] := rfl
      rw [hl, List.map_append, List.nodup_append]
      refine ⟨hnd, List.nodup_singleton _, ?_⟩
      intro x hx
      simp only [List.map_cons, List.map_nil, List.mem_singleton]
      intro hxeq
      have hle := le_maxId0 hx
      have hid : (createApplication db a now).1.id
          = maxId0 (db.applications.map (fun x => x.id)) + 1 := rfl
      omega

def c10Data : OppData :=
  { title := "T", description := "D", requiredExpertise := ["X"], timeCommitment := "t"
    compensation := "c", companyId := 1, companyName := "Acme", status := "open"
    viewCount := 0, applicantCount := 0 }

def c10AppData : AppData :=
  { lpId := 2, lpName := "B B", lpEmail := "b@x.com", opportunityId := 5
    opportunityTitle := "T", companyId := 1, companyName := "Acme" }

theorem C10_id_assignment_witness :
    ((c8DB.opportunities.map (fun o => o.id)).Nodup)
    ∧ (((createOpportunity c8DB c10Data 20).2.opportunities.map (fun o => o.id)).Nodup) :=
  ⟨by decide, (C10_id_assignment c8DB c10Data c10AppData 20).1.2.2 (by decide)⟩

end Vibhu
